import Mathlib

/-!
Shallow embedding of the impression-allocation and balance-settlement core of
the `pro_messanger_ads` repository (Django app `api`), translated from
`src/api/models.py`, `src/api/views.py` and `src/api/serializers.py`.

Conventions of the embedding:
* Python `Decimal` money values become `ℚ`.  For every computation appearing in
  the embedded code the 28-significant-digit `Decimal` context is exact (the
  operands have at most two decimal places and bounded size), so `ℚ` models it
  faithfully; `int(...)` on a non-negative value is truncation toward zero,
  i.e. `Rat.floor` here.
* Django `PositiveIntegerField` counters become `ℕ`.
* A database row set becomes a list; `get(pk=...)` becomes `List.find?`;
  `select_for_update` + `transaction.atomic` become a pure state transition
  (the locked read-check-mutate-write sequence is a single function).
* `Tag.find_similar_tags` depends on PostgreSQL trigram similarity, which is
  an external collaborator; it is a parameter `sim` of the allocation
  functions, filtered and sorted exactly as the Django query does.
-/

namespace ProAds

/-- Python `int()` applied to an exact non-negative/negative rational:
truncation toward zero (`models.py`, `calculate_views_from_budget` uses it on
a positive value, where it coincides with `Rat.floor`). -/
def pyInt (q : ℚ) : ℤ :=
  if 0 ≤ q then Rat.floor q else -Rat.floor (-q)

/-- Embedding of `Balance.deposit` (`models.py` lines 47-50): unconditionally adds the
amount; there is no validation at the model layer. -/
def Balance.deposit (bal amount : ℚ) : ℚ :=
  bal + amount

/-- Embedding of `Balance.withdraw` (`models.py` lines 52-58): subtracts when the balance
suffices, otherwise no mutation and failure. -/
def Balance.withdraw (bal amount : ℚ) : Option ℚ :=
  if amount ≤ bal then some (bal - amount) else none

/-- One row of the `Order` table (`models.py` lines 109-150).  `channelExtId`
and `chanName` are the `channel_id` string and `channel_name` of the related
`Channel` row (the view reads them through `select_related`). -/
structure Order where
  id : ℕ
  channelExtId : String
  chanName : String
  spm : ℚ
  budget : ℚ
  total_views : ℕ
  shown_views : ℕ
  remaining_views : ℕ
  max_views_per_user : ℕ
  completed : Bool
  cancelled : Bool
  is_active : Bool
  tags : List String
deriving DecidableEq, Repr

/-- Embedding of `Order.calculate_views_from_budget` (`models.py` lines 160-166):
`int((budget / spm) * 1000)` when `spm > 0`, else `0`.  The result is stored
into a `PositiveIntegerField`, hence `ℕ` via `Int.toNat` (negative inputs are
rejected by field validators before reaching this code). -/
def Order.calculate_views_from_budget (o : Order) : ℕ :=
  if 0 < o.spm then (pyInt (o.budget / o.spm * 1000)).toNat else 0

/-- Embedding of `Order.save` on a new row (`models.py` lines 168-177): when the order is
new and both `budget` and `spm` are truthy (non-zero), recompute
`total_views` and initialise `remaining_views` to it. -/
def Order.saveNew (o : Order) : Order :=
  if o.budget ≠ 0 ∧ o.spm ≠ 0 then
    { o with total_views := o.calculate_views_from_budget
             remaining_views := o.calculate_views_from_budget }
  else o

/-- The order-relevant inputs of `ChannelOrderSerializer.create`
(`serializers.py` lines 356-401): the new `Order` is constructed with the
counter fields at their model defaults and then saved. -/
structure OrderInit where
  id : ℕ
  channelExtId : String
  chanName : String
  spm : ℚ
  budget : ℚ
  max_views_per_user : ℕ
  is_active : Bool
  tags : List String
deriving DecidableEq, Repr

/-- Order construction as performed by `ChannelOrderSerializer.create`:
`Order(...)` with default counters (`total_views = shown_views =
remaining_views = 0`, `completed = cancelled = False`) followed by
`order.save()`. -/
def createOrder (p : OrderInit) : Order :=
  Order.saveNew
    { id := p.id
      channelExtId := p.channelExtId
      chanName := p.chanName
      spm := p.spm
      budget := p.budget
      total_views := 0
      shown_views := 0
      remaining_views := 0
      max_views_per_user := p.max_views_per_user
      completed := false
      cancelled := false
      is_active := p.is_active
      tags := p.tags }

/-- Embedding of `Order.decrement_views` (`models.py` lines 192-205): `some` of the updated
order on the `True` branch, `none` on the `False` branch (no mutation). -/
def Order.decrement_views (o : Order) : Option Order :=
  if 0 < o.remaining_views ∧ o.cancelled = false then
    let o1 := { o with shown_views := o.shown_views + 1
                       remaining_views := o.remaining_views - 1 }
    some (if o1.remaining_views = 0 then
            { o1 with completed := true, is_active := false }
          else o1)
  else none

/-- Result of `Order.cancel_order`: the returned refund plus the
post-state of the order row and of the owner's balance row. -/
structure CancelResult where
  refund : ℚ
  order : Order
  balance : ℚ
deriving DecidableEq, Repr

/-- Embedding of `Order.cancel_order` (`models.py` lines 207-227): guarded by
`not self.cancelled and self.is_active`; on success computes
`(remaining_views / 1000) * spm`, deposits it, flips the flags and zeroes
`remaining_views`; otherwise returns `0` and mutates nothing. -/
def Order.cancel_order (o : Order) (bal : ℚ) : CancelResult :=
  if o.cancelled = false ∧ o.is_active = true then
    let refund : ℚ := (o.remaining_views : ℚ) / 1000 * o.spm
    { refund := refund
      order := { o with cancelled := true
                        is_active := false
                        completed := false
                        remaining_views := 0 }
      balance := Balance.deposit bal refund }
  else
    { refund := 0, order := o, balance := bal }

/-- The two rejection reasons of `CancelOrderView._validate_order_for_cancellation`
(`views.py` lines 164-170). -/
inductive CancelError where
  | alreadyCancelled
  | alreadyCompleted
deriving DecidableEq, Repr

/-- Embedding of `CancelOrderView._validate_order_for_cancellation` (`views.py` lines
164-170): reject if `cancelled`, then if `completed`; otherwise pass. -/
def validate_order_for_cancellation (o : Order) : Option CancelError :=
  if o.cancelled then some .alreadyCancelled
  else if o.completed then some .alreadyCompleted
  else none

/-- Embedding of `CancelOrderView.post` (`views.py` lines 117-162) after the order row has
been fetched and locked: validation failure returns an error response and the
transaction leaves order and balance untouched; otherwise
`order.cancel_order()` runs.  The triple is
(error-or-none, post-state of the order row, post-state of the balance). -/
def cancelEndpoint (o : Order) (bal : ℚ) : Option CancelError × Order × ℚ :=
  match validate_order_for_cancellation o with
  | some e => (some e, o, bal)
  | none =>
    let r := o.cancel_order bal
    (none, r.order, r.balance)

/-- The error/warning dictionary built by
`OrderActivationSerializer._validate_order_status` (`serializers.py` lines
301-330): at most one message under each of the keys `error` and `warning`. -/
structure ActivationErrors where
  error : Option String
  warning : Option String
deriving DecidableEq, Repr

/-- Embedding of `OrderActivationSerializer._validate_order_status` (`serializers.py`
lines 301-330).  Early return on `cancelled` / `completed`; otherwise the
same-status check fills `warning`, and the two activation guards fill
`error` (the later budget guard overwrites the remaining-views message when
both fire; `remaining_views <= 0` on a `PositiveIntegerField` is `= 0`). -/
def validate_order_status (o : Order) (new_is_active : Bool) : ActivationErrors :=
  if o.cancelled then
    { error := some "cannot change the status of a cancelled order", warning := none }
  else if o.completed then
    { error := some "cannot change the status of a completed order", warning := none }
  else
    { warning :=
        if o.is_active = new_is_active then
          some (if new_is_active then "order is already active" else "order is already inactive")
        else none
      error :=
        if new_is_active = true ∧ o.budget ≤ 0 then
          some "cannot activate an order with zero budget"
        else if new_is_active = true ∧ o.remaining_views = 0 then
          some "cannot activate an order with no remaining views"
        else none }

/-- Embedding of `OrderActivationSerializer.validate` (`serializers.py` lines 267-299):
`raise ValidationError(validation_errors)` whenever the returned dictionary is
non-empty — including when it only holds the `warning` key — so the success
path never carries a warning in `validated_data`. -/
def activationValidate (o : Order) (new_is_active : Bool) :
    Except ActivationErrors Unit :=
  let errs := validate_order_status o new_is_active
  if errs.error = none ∧ errs.warning = none then .ok () else .error errs

/-- The observable outcome of `OrderActivationView.post`. -/
inductive ActivationOutcome where
  /-- serializer `is_valid(raise_exception=True)` failed: HTTP 400. -/
  | validationError (e : ActivationErrors)
  /-- the view's `'warning' in serializer.validated_data` branch: HTTP 200,
  no mutation. -/
  | warningNoop
  /-- the in-transaction `remaining_views <= 0` rejection: HTTP 400. -/
  | activationError
  /-- the status was updated and saved: HTTP 200. -/
  | ok
deriving DecidableEq, Repr

/-- Embedding of `OrderActivationView.post` (`views.py` lines 247-311): serializer
validation, then the dead `warning` branch (the serializer never puts a
warning into `validated_data`), then the locked update — set `is_active`,
reject activation with no remaining views before saving (the early `return`
leaves the row unchanged), mirror the dead `remaining_views == 0` repair
branch, and save. -/
def activationEndpoint (o : Order) (new_is_active : Bool) :
    ActivationOutcome × Order :=
  match activationValidate o new_is_active with
  | .error e => (.validationError e, o)
  | .ok _ =>
    let locked := { o with is_active := new_is_active }
    if new_is_active then
      if locked.remaining_views = 0 then (.activationError, o)
      else
        let locked2 :=
          if locked.remaining_views = 0 ∧ locked.completed = false then
            { locked with completed := true, is_active := false }
          else locked
        (.ok, locked2)
    else (.ok, locked)

/-- One row of the `AdView` table (`models.py` lines 236-253): the per
(order, viewer) exposure record. -/
structure AdView where
  orderId : ℕ
  viewer_id : String
  view_count : ℕ
deriving DecidableEq, Repr

/-- The database state the allocation engine reads and writes: the `Order`
rows, the `AdView` rows, and the `Tag` registry (tag names are already
normalised lower+trim strings). -/
structure St where
  orders : List Order
  ad_views : List AdView
  tag_names : List String
deriving DecidableEq, Repr

/-- Embedding of `Order.objects.get(pk=...)`. -/
def findOrder (st : St) (pk : ℕ) : Option Order :=
  st.orders.find? (fun o => o.id == pk)

/-- Lookup of the `AdView` row for an (order, viewer) pair — the uniqueness
constraint `unique_together = ['order', 'viewer_id']` makes the first match
the row. -/
def findAdView (st : St) (oid : ℕ) (v : String) : Option AdView :=
  st.ad_views.find? (fun a => a.orderId == oid && a.viewer_id == v)

/-- The `view_count` visible for an (order, viewer) pair; a missing row reads
as the `get_or_create` default `0`. -/
def viewCount (st : St) (oid : ℕ) (v : String) : ℕ :=
  ((findAdView st oid v).map AdView.view_count).getD 0

/-- Writing an updated order row back (`order_lock.save()`). -/
def setOrder (st : St) (o : Order) : St :=
  { st with orders := st.orders.map (fun x => if x.id == o.id then o else x) }

/-- Writing an updated `view_count` back (`ad_view.save()`). -/
def setAdView (st : St) (oid : ℕ) (v : String) (c : ℕ) : St :=
  { st with
    ad_views := st.ad_views.map (fun a =>
      if a.orderId == oid && a.viewer_id == v then { a with view_count := c }
      else a) }

/-- The create half of `AdView.objects.get_or_create(..., defaults=dict(view_count=0))`:
insert a fresh row with `view_count = 0` when none exists.  The insert is
persisted even when the attempt is later rejected, because
`transaction.atomic` commits on a plain `return False`. -/
def ensureAdView (st : St) (oid : ℕ) (v : String) : St :=
  match findAdView st oid v with
  | some _ => st
  | none => { st with ad_views := st.ad_views ++ [⟨oid, v, 0⟩] }

/-- Embedding of `SearchChannelsView._try_show_ad_to_user` (`views.py` lines 411-453): the
single atomic commit attempt.  Returns the `True`/`False` result together
with the committed post-state. -/
def try_show_ad_to_user (st : St) (pk : ℕ) (viewer : String) : Bool × St :=
  match findOrder st pk with
  | none => (false, st)
  | some o =>
    if o.remaining_views = 0 || o.cancelled || !o.is_active then (false, st)
    else
      let st1 := ensureAdView st pk viewer
      let c := viewCount st1 pk viewer
      if o.max_views_per_user ≤ c then (false, st1)
      else
        let o1 := { o with shown_views := o.shown_views + 1
                           remaining_views := o.remaining_views - 1 }
        let o2 := if o1.remaining_views = 0 then
                    { o1 with completed := true, is_active := false }
                  else o1
        (true, setAdView (setOrder st1 o2) pk viewer (c + 1))

/-- The success payload of a search (`views.py` lines 403-407): the related
channel's external id and name, and the order's primary key. -/
structure SearchResult where
  channel_id : String
  channel_name : String
  order_id : ℕ
deriving DecidableEq, Repr

/-- Embedding of `SearchChannelsView._get_sorted_orders_by_tag` (`views.py` lines
385-392): filter `tags=tag_obj, is_active=True, cancelled=False,
remaining_views__gt=0` and order by `-spm` (descending). -/
def get_sorted_orders_by_tag (st : St) (t : String) : List Order :=
  (st.orders.filter
    (fun o => o.tags.contains t && o.is_active && !o.cancelled
              && decide (0 < o.remaining_views))).mergeSort
    (fun a b => decide (b.spm ≤ a.spm))

/-- Embedding of `SearchChannelsView._process_orders` (`views.py` lines 394-409): walk the
fetched candidate list, threading the database state through the commit
attempts, and stop at the first success. -/
def process_orders (st : St) (orders : List Order) (viewer : String) :
    Option SearchResult × St :=
  match orders with
  | [] => (none, st)
  | o :: rest =>
    let r := try_show_ad_to_user st o.id viewer
    if r.1 then
      (some { channel_id := o.channelExtId
              channel_name := o.chanName
              order_id := o.id }, r.2)
    else process_orders r.2 rest viewer

/-- Embedding of `Tag.find_similar_tags` (`models.py` lines 78-84) with the trigram
similarity measure `sim` as the external collaborator: keep the tags with
`similarity >= threshold` and order by descending similarity. -/
def find_similar_tags (sim : String → String → ℚ) (st : St) (name : String)
    (threshold : ℚ) : List String :=
  (st.tag_names.filter (fun n => decide (threshold ≤ sim n name))).mergeSort
    (fun a b => decide (sim b name ≤ sim a name))

/-- The `for similar_tag in similar_tags` loop of
`SearchChannelsView._find_suitable_order` (`views.py` lines 377-381): each
similar tag's candidate list is exhausted before the next tag is tried. -/
def processSimilar (sim : String → String → ℚ) (st : St)
    (tagList : List String) (viewer : String) : Option SearchResult × St :=
  match tagList with
  | [] => (none, st)
  | t :: rest =>
    let r := process_orders st (get_sorted_orders_by_tag st t) viewer
    match r.1 with
    | some res => (some res, r.2)
    | none => processSimilar sim r.2 rest viewer

/-- Embedding of `SearchChannelsView._find_suitable_order` (`views.py` lines 364-383): an
exact tag match is served directly — its result, even `None`, is returned
without falling through — and only `Tag.DoesNotExist` reaches the
similarity fallback with threshold `0.3`. -/
def find_suitable_order (sim : String → String → ℚ) (st : St) (t : String)
    (viewer : String) : Option SearchResult × St :=
  if st.tag_names.contains t then
    process_orders st (get_sorted_orders_by_tag st t) viewer
  else
    processSimilar sim st (find_similar_tags sim st t (3 / 10)) viewer

/-- Embedding of `DepositSerializer` (`serializers.py` lines 419-431) on an exact decimal
amount: `DecimalField(max_digits=15, decimal_places=2, min_value=0.01)` plus
the redundant `amount > 0` check of `validate`. -/
def depositSerializerValid (a : ℚ) : Bool :=
  decide ((a * 100).den = 1) && decide (a < 10 ^ 13)
    && decide ((1 : ℚ) / 100 ≤ a) && decide (0 < a)

/-- Embedding of `DepositView.post` (`views.py` lines 71-92): deposits only amounts the
serializer accepted; `none` models the HTTP 400 validation failure (no
mutation). -/
def depositEndpoint (bal a : ℚ) : Option ℚ :=
  if depositSerializerValid a then some (Balance.deposit bal a) else none

/-! Spec-side rendering of the allocation algorithm, written from the words of
the allocation claim so that it can be compared with the source-side
`find_suitable_order`. -/

/-- Spec wording: a candidate order for a resolved tag has `is_active=true ∧
cancelled=false ∧ remaining_views>0 ∧ tag ∈ order.tags`. -/
def specEligible (t : String) (o : Order) : Bool :=
  o.is_active && !o.cancelled && decide (0 < o.remaining_views)
    && o.tags.contains t

/-- Spec wording: the candidate orders of a resolved tag, in descending `spm`
order. -/
def specCandidates (st : St) (t : String) : List Order :=
  (st.orders.filter (specEligible t)).mergeSort
    (fun a b => decide (b.spm ≤ a.spm))

/-- Spec wording: try the candidates in order; the first one whose commit
succeeds is returned. -/
def specServe (st : St) (cands : List Order) (viewer : String) :
    Option SearchResult × St :=
  match cands with
  | [] => (none, st)
  | o :: rest =>
    let r := try_show_ad_to_user st o.id viewer
    if r.1 then
      (some { channel_id := o.channelExtId
              channel_name := o.chanName
              order_id := o.id }, r.2)
    else specServe r.2 rest viewer

/-- Spec wording: the similar tags with similarity `≥ 0.3`, in descending
similarity order. -/
def specSimilarTags (sim : String → String → ℚ) (st : St) (t : String) :
    List String :=
  (st.tag_names.filter (fun n => decide ((3 : ℚ) / 10 ≤ sim n t))).mergeSort
    (fun a b => decide (sim b t ≤ sim a t))

/-- Spec wording: exhaust each similar tag's candidates before moving to the
next similar tag. -/
def specTrySimilar (sim : String → String → ℚ) (st : St)
    (tagList : List String) (viewer : String) : Option SearchResult × St :=
  match tagList with
  | [] => (none, st)
  | t :: rest =>
    let r := specServe st (specCandidates st t) viewer
    match r.1 with
    | some res => (some res, r.2)
    | none => specTrySimilar sim r.2 rest viewer

/-- Spec wording of the whole request: resolve the tag by exact match first;
an existing exact tag is served terminally (no similarity fallback even when
all its candidates fail); only a missing tag triggers the similarity
fallback. -/
def allocationSpec (sim : String → String → ℚ) (st : St) (t : String)
    (viewer : String) : Option SearchResult × St :=
  if st.tag_names.contains t then specServe st (specCandidates st t) viewer
  else specTrySimilar sim st (specSimilarTags sim st t) viewer

/-- The order row written back by a successful commit of
`_try_show_ad_to_user`: counters moved by one, and the completion flags
flipped exactly when the pool empties. -/
def commitOrder (o : Order) : Order :=
  let o1 := { o with shown_views := o.shown_views + 1
                     remaining_views := o.remaining_views - 1 }
  if o1.remaining_views = 0 then { o1 with completed := true, is_active := false }
  else o1

/-- A sequence of commit attempts, each naming the targeted order and the
viewer, executed left to right against the shared state. -/
def runAttempts (st : St) : List (ℕ × String) → St
  | [] => st
  | a :: rest => runAttempts (try_show_ad_to_user st a.1 a.2).2 rest

/-- How many attempts of the sequence succeed for the given
(order, viewer) pair. -/
def successCount (st : St) (l : List (ℕ × String)) (pk : ℕ) (v : String) : ℕ :=
  match l with
  | [] => 0
  | a :: rest =>
    let r := try_show_ad_to_user st a.1 a.2
    (if r.1 = true ∧ pk = a.1 ∧ v = a.2 then 1 else 0)
      + successCount r.2 rest pk v

/-- The view-pool invariant of the spec:
`shown_views + remaining_views = total_views`. -/
def viewsInvariant (o : Order) : Prop :=
  o.shown_views + o.remaining_views = o.total_views

/-- Sample creation request used by concrete witnesses: `budget = 100`,
`spm = 5` (pool 20000). -/
def sampleInit : OrderInit :=
  { id := 1
    channelExtId := "chan-1"
    chanName := "Channel One"
    spm := 5
    budget := 100
    max_views_per_user := 1
    is_active := true
    tags := ["news"] }

/-- A fully viewable sample order used by concrete witnesses: the literal
state of a freshly created order with `budget = 100`, `spm = 5`
(pool 20000). -/
def sampleOrder : Order :=
  { id := 1
    channelExtId := "chan-1"
    chanName := "Channel One"
    spm := 5
    budget := 100
    total_views := 20000
    shown_views := 0
    remaining_views := 20000
    max_views_per_user := 1
    completed := false
    cancelled := false
    is_active := true
    tags := ["news"] }

/-- A trivial similarity measure for concrete witnesses. -/
def zeroSim : String → String → ℚ :=
  fun _ _ => 0

/-- The refund example order of the spec: `spm = 10.00`,
`remaining_views = 250`. -/
def refundOrder : Order :=
  { sampleOrder with spm := 10, total_views := 250, remaining_views := 250 }

/-- A manually deactivated, uncancelled, uncompleted order with remaining
pool — the cancellation edge case. -/
def deactivatedOrder : Order :=
  { refundOrder with is_active := false }

/-- A servable sample order with a pool of 5 views, capped at one view per
viewer. -/
def sampleStOrder : Order :=
  { sampleOrder with total_views := 5, remaining_views := 5 }

/-- A small allocation state with one order capped at one view per viewer. -/
def sampleSt : St :=
  { orders := [sampleStOrder]
    ad_views := []
    tag_names := ["news"] }

/-- The same state after the viewer `"v"` has exhausted their cap on the
sample order. -/
def cappedSt : St :=
  { sampleSt with ad_views := [⟨1, "v", 1⟩] }

/-- Three successive attempts by the same viewer against the sample order. -/
def capAttempts : List (ℕ × String) :=
  [(1, "v"), (1, "v"), (1, "v")]

/-! ### Helper lemmas about the state operations -/

theorem find?_map_congr {α : Type} (p : α → Bool) (f : α → α)
    (hf : ∀ a, p (f a) = p a) (l : List α) :
    (l.map f).find? p = (l.find? p).map f := by
  rw [List.find?_map]
  have h : p ∘ f = p := funext hf
  rw [h]

theorem orders_ensureAdView (st : St) (oid : ℕ) (v : String) :
    (ensureAdView st oid v).orders = st.orders := by
  unfold ensureAdView
  cases findAdView st oid v <;> rfl

theorem orders_setAdView (st : St) (oid : ℕ) (v : String) (c : ℕ) :
    (setAdView st oid v c).orders = st.orders := rfl

theorem ad_views_setOrder (st : St) (o : Order) :
    (setOrder st o).ad_views = st.ad_views := rfl

theorem tag_names_ensureAdView (st : St) (oid : ℕ) (v : String) :
    (ensureAdView st oid v).tag_names = st.tag_names := by
  unfold ensureAdView
  cases findAdView st oid v <;> rfl

theorem findOrder_ensureAdView (st : St) (oid : ℕ) (v : String) (pk : ℕ) :
    findOrder (ensureAdView st oid v) pk = findOrder st pk := by
  unfold findOrder
  rw [orders_ensureAdView]

theorem findOrder_setAdView (st : St) (oid : ℕ) (v : String) (c : ℕ) (pk : ℕ) :
    findOrder (setAdView st oid v c) pk = findOrder st pk := rfl

theorem viewCount_setOrder (st : St) (o : Order) (oid : ℕ) (v : String) :
    viewCount (setOrder st o) oid v = viewCount st oid v := rfl

theorem findOrder_setOrder (st : St) (o' : Order) (pk : ℕ) :
    findOrder (setOrder st o') pk =
      (findOrder st pk).map (fun x => if x.id == o'.id then o' else x) := by
  unfold findOrder setOrder
  exact find?_map_congr _ _ (fun x => by
    by_cases h : x.id == o'.id
    · have hx : x.id = o'.id := by simpa using h
      simp [h, hx]
    · simp [h]) st.orders

theorem viewCount_ensureAdView (st : St) (oid : ℕ) (v : String)
    (oid' : ℕ) (v' : String) :
    viewCount (ensureAdView st oid v) oid' v' = viewCount st oid' v' := by
  unfold ensureAdView viewCount
  cases h : findAdView st oid v with
  | some a => rfl
  | none =>
    show (((st.ad_views ++ [AdView.mk oid v 0]).find? _).map AdView.view_count).getD 0 = _
    rw [List.find?_append]
    unfold findAdView at *
    cases h' : st.ad_views.find?
        (fun a => a.orderId == oid' && a.viewer_id == v') with
    | some a => simp [h']
    | none =>
      simp only [h', Option.none_or]
      cases hrow : (List.find?
          (fun a => a.orderId == oid' && a.viewer_id == v') [AdView.mk oid v 0]) with
      | none => simp
      | some a =>
        have hmem := List.mem_of_find?_eq_some hrow
        simp at hmem
        subst hmem
        simp

theorem findAdView_ensureAdView_self (st : St) (oid : ℕ) (v : String) :
    ∃ a, findAdView (ensureAdView st oid v) oid v = some a
      ∧ a.view_count = viewCount st oid v := by
  unfold ensureAdView
  cases h : findAdView st oid v with
  | some a => exact ⟨a, h, by unfold viewCount; rw [h]; rfl⟩
  | none =>
    refine ⟨AdView.mk oid v 0, ?_, by unfold viewCount; rw [h]; rfl⟩
    show (st.ad_views ++ [AdView.mk oid v 0]).find? _ = _
    rw [List.find?_append]
    unfold findAdView at h
    simp [h]

theorem viewCount_setAdView_self (st : St) (oid : ℕ) (v : String) (c : ℕ)
    (h : (findAdView st oid v).isSome) :
    viewCount (setAdView st oid v c) oid v = c := by
  obtain ⟨a, ha⟩ := Option.isSome_iff_exists.mp h
  unfold viewCount findAdView setAdView
  show ((((st.ad_views.map _).find? _).map AdView.view_count).getD 0) = c
  rw [find?_map_congr _ _ (fun x => by
    by_cases hx : x.orderId == oid && x.viewer_id == v <;> simp [hx])]
  unfold findAdView at ha
  rw [ha]
  have hpa := List.find?_some ha
  simp only [Bool.and_eq_true, beq_iff_eq] at hpa
  simp [hpa.1, hpa.2]

theorem viewCount_setAdView_other (st : St) (oid : ℕ) (v : String) (c : ℕ)
    (oid' : ℕ) (v' : String) (hne : ¬(oid' = oid ∧ v' = v)) :
    viewCount (setAdView st oid v c) oid' v' = viewCount st oid' v' := by
  unfold viewCount findAdView setAdView
  show ((((st.ad_views.map _).find? _).map AdView.view_count).getD 0) = _
  rw [find?_map_congr _ _ (fun x => by
    by_cases hx : x.orderId == oid && x.viewer_id == v <;> simp [hx])]
  cases ha : st.ad_views.find?
      (fun a => a.orderId == oid' && a.viewer_id == v') with
  | none => simp
  | some a =>
    have hpa := List.find?_some ha
    simp only [Bool.and_eq_true, beq_iff_eq] at hpa
    have hnot : ¬(a.orderId = oid ∧ a.viewer_id = v) := fun hcon =>
      hne ⟨hpa.1.symm.trans hcon.1, hpa.2.symm.trans hcon.2⟩
    simp [ha, hnot]

/-- Full case description of a commit attempt: either it fails and the state
is unchanged up to the possible creation of a zero-count exposure row, or the
guard and the per-viewer cap pass and the commit writes `commitOrder` and the
incremented view count. -/
theorem try_show_cases (st : St) (pk : ℕ) (v : String) :
    ((try_show_ad_to_user st pk v).1 = false
      ∧ ((try_show_ad_to_user st pk v).2 = st
          ∨ (try_show_ad_to_user st pk v).2 = ensureAdView st pk v))
    ∨ (∃ o, findOrder st pk = some o
        ∧ 0 < o.remaining_views ∧ o.cancelled = false ∧ o.is_active = true
        ∧ viewCount st pk v < o.max_views_per_user
        ∧ (try_show_ad_to_user st pk v).1 = true
        ∧ (try_show_ad_to_user st pk v).2 =
            setAdView (setOrder (ensureAdView st pk v) (commitOrder o)) pk v
              (viewCount st pk v + 1)) := by
  unfold try_show_ad_to_user
  cases h : findOrder st pk with
  | none => exact Or.inl ⟨rfl, Or.inl rfl⟩
  | some o =>
    simp only []
    by_cases hg : (o.remaining_views = 0 : Bool) || o.cancelled || !o.is_active
    · rw [if_pos hg]
      exact Or.inl ⟨rfl, Or.inl rfl⟩
    · rw [if_neg hg]
      simp only [Bool.or_eq_true, Bool.not_eq_true', decide_eq_true_eq,
        not_or, Bool.not_eq_true] at hg
      obtain ⟨⟨hrem, hcan⟩, hact⟩ := hg
      have hc : viewCount (ensureAdView st pk v) pk v = viewCount st pk v :=
        viewCount_ensureAdView st pk v pk v
      by_cases hcap : o.max_views_per_user ≤ viewCount (ensureAdView st pk v) pk v
      · rw [if_pos hcap]
        exact Or.inl ⟨rfl, Or.inr rfl⟩
      · rw [if_neg hcap]
        refine Or.inr ⟨o, rfl, Nat.pos_of_ne_zero hrem, hcan, by
          cases ho : o.is_active with
          | true => rfl
          | false => exact absurd ho hact, ?_, rfl, ?_⟩
        · rw [hc] at hcap
          exact Nat.lt_of_not_le hcap
        · rw [hc]
          rfl

theorem commitOrder_id (o : Order) : (commitOrder o).id = o.id := by
  by_cases h : o.remaining_views - 1 = 0 <;> simp [commitOrder, h]

theorem commitOrder_max (o : Order) :
    (commitOrder o).max_views_per_user = o.max_views_per_user := by
  by_cases h : o.remaining_views - 1 = 0 <;> simp [commitOrder, h]

theorem commitOrder_total (o : Order) :
    (commitOrder o).total_views = o.total_views := by
  by_cases h : o.remaining_views - 1 = 0 <;> simp [commitOrder, h]

theorem commitOrder_shown (o : Order) :
    (commitOrder o).shown_views = o.shown_views + 1 := by
  by_cases h : o.remaining_views - 1 = 0 <;> simp [commitOrder, h]

theorem commitOrder_remaining (o : Order) :
    (commitOrder o).remaining_views = o.remaining_views - 1 := by
  by_cases h : o.remaining_views - 1 = 0 <;> simp [commitOrder, h]

/-- How one attempt moves the visible view count of every pair: unchanged on
failure, incremented exactly at the attempted pair on success. -/
theorem viewCount_try_show (st : St) (pk : ℕ) (v : String)
    (oid' : ℕ) (v' : String) :
    viewCount (try_show_ad_to_user st pk v).2 oid' v' =
      viewCount st oid' v' +
        (if (try_show_ad_to_user st pk v).1 = true ∧ oid' = pk ∧ v' = v
         then 1 else 0) := by
  rcases try_show_cases st pk v with
    ⟨hf, hst | hst⟩ | ⟨o, h, hrem, hcan, hact, hcap, hs, hst⟩
  · rw [hst]; simp [hf]
  · rw [hst, viewCount_ensureAdView]; simp [hf]
  · rw [hst]
    by_cases hp : oid' = pk ∧ v' = v
    · obtain ⟨h1, h2⟩ := hp
      subst h1; subst h2
      rw [viewCount_setAdView_self]
      · simp [hs]
      · obtain ⟨a, ha, -⟩ := findAdView_ensureAdView_self st oid' v'
        have : findAdView
            (setOrder (ensureAdView st oid' v') (commitOrder o)) oid' v' =
            findAdView (ensureAdView st oid' v') oid' v' := rfl
        rw [this, ha]
        rfl
    · rw [viewCount_setAdView_other _ _ _ _ _ _ hp]
      have : viewCount (setOrder (ensureAdView st pk v) (commitOrder o)) oid' v' =
          viewCount (ensureAdView st pk v) oid' v' := rfl
      rw [this, viewCount_ensureAdView]
      simp [hp]

theorem orders_try_show_false (st : St) (pk : ℕ) (v : String)
    (hf : (try_show_ad_to_user st pk v).1 = false) :
    (try_show_ad_to_user st pk v).2.orders = st.orders := by
  rcases try_show_cases st pk v with ⟨-, hst | hst⟩ | ⟨o, -, -, -, -, -, hs, -⟩
  · rw [hst]
  · rw [hst, orders_ensureAdView]
  · rw [hs] at hf; exact absurd hf (by simp)

/-- A commit attempt never changes any order field that `commitOrder` leaves
alone, as read through `findOrder`, for any order id. -/
theorem field_findOrder_try_show {α : Type} (f : Order → α)
    (hf : ∀ o, f (commitOrder o) = f o)
    (st : St) (pk : ℕ) (v : String) (pk' : ℕ) :
    ((findOrder (try_show_ad_to_user st pk v).2 pk').map f)
      = (findOrder st pk').map f := by
  rcases try_show_cases st pk v with
    ⟨-, hst | hst⟩ | ⟨o, h, -, -, -, -, -, hst⟩
  · rw [hst]
  · rw [hst, findOrder_ensureAdView]
  · rw [hst, findOrder_setAdView, findOrder_setOrder, findOrder_ensureAdView]
    cases h' : findOrder st pk' with
    | none => rfl
    | some y =>
      show some (f (if y.id == (commitOrder o).id then commitOrder o else y)) = _
      by_cases hid : y.id == (commitOrder o).id
      · have hyid : y.id = (commitOrder o).id := by simpa using hid
        have hoid : o.id = pk := by simpa using List.find?_some h
        have hy : y.id = pk' := by simpa using List.find?_some h'
        have hpk : pk' = pk := by rw [← hy, hyid, commitOrder_id, hoid]
        subst hpk
        rw [h] at h'
        have hyo : y = o := (Option.some.inj h').symm
        subst hyo
        simp [hid, hf]
      · simp [hid]

theorem max_findOrder_try_show (st : St) (pk : ℕ) (v : String) (pk' : ℕ) :
    ((findOrder (try_show_ad_to_user st pk v).2 pk').map Order.max_views_per_user)
      = (findOrder st pk').map Order.max_views_per_user :=
  field_findOrder_try_show Order.max_views_per_user commitOrder_max st pk v pk'

/-- Running a sequence of attempts adds exactly the pair's success count to
its view count. -/
theorem viewCount_runAttempts (pk : ℕ) (v : String) :
    ∀ (l : List (ℕ × String)) (st : St),
      viewCount (runAttempts st l) pk v =
        viewCount st pk v + successCount st l pk v
  | [], st => by simp [runAttempts, successCount]
  | a :: rest, st => by
    unfold runAttempts successCount
    dsimp only
    rw [viewCount_runAttempts pk v rest, viewCount_try_show]
    omega

theorem max_findOrder_runAttempts (pk : ℕ) :
    ∀ (l : List (ℕ × String)) (st : St),
      ((findOrder (runAttempts st l) pk).map Order.max_views_per_user)
        = (findOrder st pk).map Order.max_views_per_user
  | [], _ => rfl
  | a :: rest, st => by
    unfold runAttempts
    rw [max_findOrder_runAttempts pk rest, max_findOrder_try_show]

/-- The per-pair view count never exceeds the order's cap along any sequence
of attempts, because a success needs the current count to be strictly below
the (never-changing) cap. -/
theorem viewCount_le_runAttempts (pk : ℕ) (v : String) (m : ℕ) :
    ∀ (l : List (ℕ × String)) (st : St),
      (findOrder st pk).map Order.max_views_per_user = some m →
      viewCount st pk v ≤ m → viewCount (runAttempts st l) pk v ≤ m
  | [], _, _, hle => hle
  | a :: rest, st, hm, hle => by
    unfold runAttempts
    apply viewCount_le_runAttempts pk v m rest
    · rw [max_findOrder_try_show]
      exact hm
    · rw [viewCount_try_show]
      by_cases hc : (try_show_ad_to_user st a.1 a.2).1 = true ∧ pk = a.1 ∧ v = a.2
      · rw [if_pos hc]
        obtain ⟨hs, h1, h2⟩ := hc
        subst h1
        subst h2
        rcases try_show_cases st a.1 a.2 with ⟨hf, -⟩ | ⟨o, ho, -, -, -, hcap, -, -⟩
        · rw [hf] at hs
          exact absurd hs (by simp)
        · rw [ho] at hm
          have hom : o.max_views_per_user = m := Option.some.inj hm
          omega
      · rw [if_neg hc]
        simpa using hle

/-- A commit attempt keeps the view-pool invariant of every order row. -/
theorem inv_orders_try_show (st : St) (pk : ℕ) (v : String)
    (hall : ∀ o ∈ st.orders, viewsInvariant o) :
    ∀ o' ∈ (try_show_ad_to_user st pk v).2.orders, viewsInvariant o' := by
  rcases try_show_cases st pk v with
    ⟨-, hst | hst⟩ | ⟨o, h, hrem, -, -, -, -, hst⟩
  · rw [hst]; exact hall
  · rw [hst, orders_ensureAdView]; exact hall
  · rw [hst]
    intro o' ho'
    rw [orders_setAdView] at ho'
    have horders : (setOrder (ensureAdView st pk v) (commitOrder o)).orders
        = st.orders.map
            (fun x => if x.id == (commitOrder o).id then commitOrder o else x) := by
      unfold setOrder
      rw [orders_ensureAdView]
    rw [horders] at ho'
    obtain ⟨x, hx, hfx⟩ := List.mem_map.mp ho'
    by_cases hid : x.id == (commitOrder o).id
    · have hinvo : viewsInvariant o :=
        hall o (List.mem_of_find?_eq_some h)
      unfold viewsInvariant at *
      rw [← hfx, if_pos hid, commitOrder_shown, commitOrder_remaining,
        commitOrder_total]
      omega
    · rw [← hfx, if_neg hid]
      exact hall x hx

/-! ### Equivalence of the source-side allocation with its spec-side
rendering -/

theorem candidates_eq (st : St) (t : String) :
    get_sorted_orders_by_tag st t = specCandidates st t := by
  unfold get_sorted_orders_by_tag specCandidates
  congr 1
  apply List.filter_congr
  intro o _
  unfold specEligible
  cases htag : o.tags.contains t <;> cases hact : o.is_active
    <;> cases hcan : o.cancelled
    <;> cases hrem : decide (0 < o.remaining_views) <;> simp [htag, hact, hcan, hrem]

theorem process_orders_eq_specServe (viewer : String) :
    ∀ (l : List Order) (st : St),
      process_orders st l viewer = specServe st l viewer
  | [], _ => rfl
  | o :: rest, st => by
    unfold process_orders specServe
    by_cases h : (try_show_ad_to_user st o.id viewer).1
    · simp only [h, if_true]
    · simp only [h]
      exact process_orders_eq_specServe viewer rest _

theorem processSimilar_eq_specTrySimilar (sim : String → String → ℚ)
    (viewer : String) :
    ∀ (tagList : List String) (st : St),
      processSimilar sim st tagList viewer = specTrySimilar sim st tagList viewer
  | [], _ => rfl
  | t :: rest, st => by
    unfold processSimilar specTrySimilar
    dsimp only
    rw [candidates_eq, process_orders_eq_specServe]
    cases h : (specServe st (specCandidates st t) viewer).1 with
    | some res => simp only [h]
    | none =>
      simp only [h]
      exact processSimilar_eq_specTrySimilar sim viewer rest _

theorem find_suitable_order_eq_allocationSpec (sim : String → String → ℚ)
    (st : St) (t : String) (viewer : String) :
    find_suitable_order sim st t viewer = allocationSpec sim st t viewer := by
  unfold find_suitable_order allocationSpec
  by_cases h : st.tag_names.contains t
  · simp only [h, if_true]
    rw [candidates_eq, process_orders_eq_specServe]
  · have h' : st.tag_names.contains t = false := by simpa using h
    simp only [h', Bool.false_eq_true, if_false]
    have hsim : find_similar_tags sim st t (3 / 10) = specSimilarTags sim st t := rfl
    rw [hsim, processSimilar_eq_specTrySimilar]

/-! ### Claim theorems -/

/-- C1, counterexample: the invariant `shown_views + remaining_views =
total_views` does NOT hold after cancellation.  The freshly created sample
order (shown 0, remaining 20000, total 20000) satisfies it, but
`cancel_order` zeroes `remaining_views` without moving `shown_views`, so the
post-cancel state violates it. -/
theorem claim_C1_counterexample :
    viewsInvariant sampleOrder
    ∧ ¬ ((sampleOrder.cancel_order 0).order.shown_views
          + (sampleOrder.cancel_order 0).order.remaining_views
          = (sampleOrder.cancel_order 0).order.total_views) := by
  constructor
  · show sampleOrder.shown_views + sampleOrder.remaining_views
      = sampleOrder.total_views
    decide
  · decide

/-- C1, amended: `shown_views + remaining_views = total_views` holds after
creation and is preserved by every successful or failed impression commit
(both the allocation engine's commit and `decrement_views`) and by every
activation/deactivation; a cancellation instead either leaves the order
untouched (failed guard) or zeroes `remaining_views` while keeping
`shown_views` and `total_views`, so after a successful cancel the invariant
survives only if the order had been fully shown. -/
theorem claim_C1 :
    (∀ p : OrderInit, viewsInvariant (createOrder p))
    ∧ (∀ o o', Order.decrement_views o = some o' →
        viewsInvariant o → viewsInvariant o')
    ∧ (∀ (st : St) (pk : ℕ) (v : String),
        (∀ o ∈ st.orders, viewsInvariant o) →
        ∀ o' ∈ (try_show_ad_to_user st pk v).2.orders, viewsInvariant o')
    ∧ (∀ (o : Order) (b : Bool), viewsInvariant o →
        viewsInvariant (activationEndpoint o b).2)
    ∧ (∀ (o : Order) (bal : ℚ), viewsInvariant o →
        ((o.cancel_order bal).order = o
          ∨ ((o.cancel_order bal).order.remaining_views = 0
              ∧ (o.cancel_order bal).order.shown_views = o.shown_views
              ∧ (o.cancel_order bal).order.total_views = o.total_views))) := by
  refine ⟨?_, ?_, ?_, ?_, ?_⟩
  · intro p
    unfold viewsInvariant createOrder Order.saveNew
    split <;> simp
  · intro o o' h hinv
    unfold Order.decrement_views at h
    by_cases hg : 0 < o.remaining_views ∧ o.cancelled = false
    · rw [if_pos hg] at h
      dsimp only at h
      have h' := Option.some.inj h
      subst h'
      unfold viewsInvariant at *
      by_cases hz : o.remaining_views - 1 = 0 <;> simp [hz] <;> omega
    · rw [if_neg hg] at h
      exact absurd h (by simp)
  · exact fun st pk v hall => inv_orders_try_show st pk v hall
  · intro o b hinv
    unfold viewsInvariant at *
    unfold activationEndpoint
    cases activationValidate o b with
    | error e => exact hinv
    | ok u =>
      dsimp only
      cases b with
      | false => exact hinv
      | true =>
        by_cases hz : o.remaining_views = 0
        · simp only [if_pos hz]
          exact hinv
        · simp only [if_neg hz, hz, false_and, if_false]
          exact hinv
  · intro o bal hinv
    unfold Order.cancel_order
    by_cases hg : o.cancelled = false ∧ o.is_active = true
    · rw [if_pos hg]
      exact Or.inr ⟨rfl, rfl, rfl⟩
    · rw [if_neg hg]
      exact Or.inl rfl

/-- C1 witness: the amended statement applied to the sample order and a
successful cancellation of the refund order. -/
theorem claim_C1_witness :
    viewsInvariant (createOrder sampleInit)
    ∧ ((refundOrder.cancel_order 0).order = refundOrder
        ∨ ((refundOrder.cancel_order 0).order.remaining_views = 0
            ∧ (refundOrder.cancel_order 0).order.shown_views
                = refundOrder.shown_views
            ∧ (refundOrder.cancel_order 0).order.total_views
                = refundOrder.total_views)) :=
  ⟨claim_C1.1 sampleInit,
   claim_C1.2.2.2.2 refundOrder 0 (by
     show refundOrder.shown_views + refundOrder.remaining_views
       = refundOrder.total_views
     decide)⟩

/-- C2: the allocation of a search request equals the claim's description
(`allocationSpec`): exact tag first; otherwise similar tags with similarity
`≥ 0.3` in descending order, each exhausted before the next; candidates of a
resolved tag are exactly the active, uncancelled orders with remaining views
carrying the tag, in descending `spm` order; the first successful commit
wins; and an existing exact tag never falls through to similarity search. -/
theorem claim_C2 (sim : String → String → ℚ) (st : St) (t : String)
    (viewer : String) :
    (find_suitable_order sim st t viewer = allocationSpec sim st t viewer)
    ∧ (get_sorted_orders_by_tag st t).Pairwise (fun a b => b.spm ≤ a.spm)
    ∧ (∀ o, o ∈ get_sorted_orders_by_tag st t ↔
        (o ∈ st.orders ∧ o.is_active = true ∧ o.cancelled = false
          ∧ 0 < o.remaining_views ∧ t ∈ o.tags))
    ∧ (st.tag_names.contains t = true →
        find_suitable_order sim st t viewer =
          process_orders st (get_sorted_orders_by_tag st t) viewer) := by
  refine ⟨find_suitable_order_eq_allocationSpec sim st t viewer, ?_, ?_, ?_⟩
  · have hs := @List.sorted_mergeSort Order
      (fun a b : Order => decide (b.spm ≤ a.spm))
      (fun a b c hab hbc => by
        simp only [decide_eq_true_eq] at *
        exact le_trans hbc hab)
      (fun a b => by
        simp only [Bool.or_eq_true, decide_eq_true_eq]
        exact le_total b.spm a.spm)
      (st.orders.filter
        (fun o => o.tags.contains t && o.is_active && !o.cancelled
              && decide (0 < o.remaining_views)))
    exact hs.imp (fun h => of_decide_eq_true h)
  · intro o
    unfold get_sorted_orders_by_tag
    rw [List.mem_mergeSort, List.mem_filter]
    simp only [Bool.and_eq_true, decide_eq_true_eq, Bool.not_eq_true',
      List.elem_iff]
    constructor
    · rintro ⟨hmem, ⟨⟨⟨htag, hact⟩, hcan⟩, hrem⟩⟩
      exact ⟨hmem, hact, hcan, hrem, htag⟩
    · rintro ⟨hmem, hact, hcan, hrem, htag⟩
      exact ⟨hmem, ⟨⟨⟨htag, hact⟩, hcan⟩, hrem⟩⟩
  · intro h
    unfold find_suitable_order
    simp only [h, if_true]

/-- C2 witness: the equivalence and the no-fallback property at a concrete
state whose tag registry contains the searched tag. -/
theorem claim_C2_witness :
    find_suitable_order zeroSim sampleSt "news" "v"
        = allocationSpec zeroSim sampleSt "news" "v"
    ∧ find_suitable_order zeroSim sampleSt "news" "v"
        = process_orders sampleSt (get_sorted_orders_by_tag sampleSt "news") "v" :=
  ⟨(claim_C2 zeroSim sampleSt "news" "v").1,
   (claim_C2 zeroSim sampleSt "news" "v").2.2.2 (by decide)⟩

/-- C3: a successful commit increments the order's `shown_views`, decrements
`remaining_views`, increments the pair's exposure count, and flips
`completed = true, is_active = false` exactly when `remaining_views` reaches
0; in particular an order with `remaining_views = 1` ends the commit with
`remaining_views = 0`, `completed = true`, `is_active = false`. -/
theorem claim_C3 (st : St) (pk : ℕ) (v : String) (o : Order)
    (h : findOrder st pk = some o)
    (hs : (try_show_ad_to_user st pk v).1 = true) :
    ∃ o', findOrder (try_show_ad_to_user st pk v).2 pk = some o'
      ∧ o'.shown_views = o.shown_views + 1
      ∧ o'.remaining_views = o.remaining_views - 1
      ∧ viewCount (try_show_ad_to_user st pk v).2 pk v = viewCount st pk v + 1
      ∧ (o.remaining_views = 1 →
          o'.remaining_views = 0 ∧ o'.completed = true ∧ o'.is_active = false)
      ∧ (1 < o.remaining_views →
          o'.completed = o.completed ∧ o'.is_active = o.is_active) := by
  rcases try_show_cases st pk v with
    ⟨hf, -⟩ | ⟨o₀, h₀, hrem, -, -, -, -, hst⟩
  · rw [hf] at hs
    exact absurd hs (by simp)
  · rw [h] at h₀
    obtain rfl : o₀ = o := (Option.some.inj h₀).symm
    refine ⟨commitOrder o₀, ?_, commitOrder_shown o₀, commitOrder_remaining o₀,
      ?_, ?_, ?_⟩
    · rw [hst, findOrder_setAdView, findOrder_setOrder, findOrder_ensureAdView, h]
      simp [commitOrder_id]
    · rw [viewCount_try_show]
      simp [hs]
    · intro h1
      refine ⟨by rw [commitOrder_remaining, h1], ?_, ?_⟩ <;>
        simp [commitOrder, h1]
    · intro h1
      have hz : ¬(o₀.remaining_views - 1 = 0) := by omega
      constructor <;> simp [commitOrder, hz]

/-- C3 witness: the commit effects at a concrete state where the viewer is
fresh and the pool holds 5 views. -/
theorem claim_C3_witness :
    ∃ o', findOrder (try_show_ad_to_user sampleSt 1 "v").2 1 = some o'
      ∧ o'.shown_views = sampleStOrder.shown_views + 1
      ∧ o'.remaining_views = sampleStOrder.remaining_views - 1
      ∧ viewCount (try_show_ad_to_user sampleSt 1 "v").2 1 "v"
          = viewCount sampleSt 1 "v" + 1
      ∧ (sampleStOrder.remaining_views = 1 →
          o'.remaining_views = 0 ∧ o'.completed = true ∧ o'.is_active = false)
      ∧ (1 < sampleStOrder.remaining_views →
          o'.completed = sampleStOrder.completed
            ∧ o'.is_active = sampleStOrder.is_active) :=
  claim_C3 sampleSt 1 "v" sampleStOrder (by decide) (by decide)

/-- C4: per-viewer cap.  A commit attempt that finds `view_count ≥
max_views_per_user` is rejected and changes no order row and no pair's view
count; and over any sequence of commit attempts starting from a fresh pair,
at most `max_views_per_user` attempts succeed for that pair, so the pair's
view count never exceeds the cap. -/
theorem claim_C4 (st : St) (pk : ℕ) (v : String) (o : Order)
    (l : List (ℕ × String)) (h : findOrder st pk = some o) :
    (o.max_views_per_user ≤ viewCount st pk v →
        (try_show_ad_to_user st pk v).1 = false
        ∧ (try_show_ad_to_user st pk v).2.orders = st.orders
        ∧ ∀ (pk' : ℕ) (v' : String),
            viewCount (try_show_ad_to_user st pk v).2 pk' v'
              = viewCount st pk' v')
    ∧ (viewCount st pk v = 0 →
        successCount st l pk v ≤ o.max_views_per_user
        ∧ viewCount (runAttempts st l) pk v ≤ o.max_views_per_user) := by
  constructor
  · intro hcap
    have hfalse : (try_show_ad_to_user st pk v).1 = false := by
      rcases try_show_cases st pk v with
        ⟨hf, -⟩ | ⟨o₀, h₀, -, -, -, hlt, -, -⟩
      · exact hf
      · rw [h] at h₀
        obtain rfl : o₀ = o := (Option.some.inj h₀).symm
        omega
    refine ⟨hfalse, orders_try_show_false st pk v hfalse, ?_⟩
    intro pk' v'
    rw [viewCount_try_show]
    simp [hfalse]
  · intro h0
    have hm : (findOrder st pk).map Order.max_views_per_user
        = some o.max_views_per_user := by rw [h]; rfl
    have hrun : viewCount (runAttempts st l) pk v ≤ o.max_views_per_user :=
      viewCount_le_runAttempts pk v o.max_views_per_user l st hm
        (by rw [h0]; exact Nat.zero_le _)
    have heq := viewCount_runAttempts pk v l st
    rw [h0] at heq
    exact ⟨by omega, hrun⟩

/-- C4 witness: the cap rejection at a state where the viewer already holds
one view of a `max_views_per_user = 1` order, and the sequence bound for
three attempts by a fresh viewer. -/
theorem claim_C4_witness :
    ((try_show_ad_to_user cappedSt 1 "v").1 = false
      ∧ viewCount (try_show_ad_to_user cappedSt 1 "v").2 1 "v"
          = viewCount cappedSt 1 "v")
    ∧ (successCount sampleSt capAttempts 1 "v"
          ≤ sampleStOrder.max_views_per_user
        ∧ viewCount (runAttempts sampleSt capAttempts) 1 "v"
          ≤ sampleStOrder.max_views_per_user) :=
  ⟨⟨((claim_C4 cappedSt 1 "v" sampleStOrder [] (by decide)).1 (by decide)).1,
    ((claim_C4 cappedSt 1 "v" sampleStOrder [] (by decide)).1 (by decide)).2.2 1 "v"⟩,
   (claim_C4 sampleSt 1 "v" sampleStOrder capAttempts (by decide)).2 (by decide)⟩

/-- C5: when an order is neither cancelled nor completed the cancellation
endpoint reaches `cancel_order`, and when that cancel succeeds (the order is
active) it refunds exactly `remaining_views / 1000 * spm` into the owner's
balance — exact rational arithmetic — and sets `cancelled = true`,
`is_active = false`, `completed = false`, `remaining_views = 0`; with
`spm = 10` and `remaining_views = 250` the refund is exactly `2.50`. -/
theorem claim_C5 (o : Order) (bal : ℚ)
    (hc : o.cancelled = false) (hd : o.completed = false) :
    cancelEndpoint o bal
        = (none, (o.cancel_order bal).order, (o.cancel_order bal).balance)
    ∧ (o.is_active = true →
        (o.cancel_order bal).refund = (o.remaining_views : ℚ) / 1000 * o.spm
        ∧ (o.cancel_order bal).balance
            = bal + (o.remaining_views : ℚ) / 1000 * o.spm
        ∧ (o.cancel_order bal).order.cancelled = true
        ∧ (o.cancel_order bal).order.is_active = false
        ∧ (o.cancel_order bal).order.completed = false
        ∧ (o.cancel_order bal).order.remaining_views = 0
        ∧ (o.remaining_views = 250 → o.spm = 10 →
            (o.cancel_order bal).refund = 5 / 2)) := by
  constructor
  · unfold cancelEndpoint validate_order_for_cancellation
    simp [hc, hd]
  · intro ha
    unfold Order.cancel_order
    rw [if_pos ⟨hc, ha⟩]
    refine ⟨rfl, rfl, rfl, rfl, rfl, rfl, ?_⟩
    intro h250 h10
    rw [h250, h10]
    show ((250 : ℕ) : ℚ) / 1000 * 10 = 5 / 2
    norm_num

/-- C5 witness: the refund example (`spm = 10.00`, `remaining_views = 250`)
evaluated through the claim. -/
theorem claim_C5_witness :
    (refundOrder.cancel_order 0).refund = 5 / 2 :=
  ((claim_C5 refundOrder 0 rfl rfl).2 rfl).2.2.2.2.2.2 rfl rfl

/-- C6: cancel is idempotent.  A call on an already-cancelled order is
rejected with `AlreadyCancelled` and changes nothing; a call on a completed
order is rejected with `AlreadyCompleted` and changes nothing; and after a
successful cancel, a second call through the endpoint is rejected with
`AlreadyCancelled`, leaving the order and the once-refunded balance exactly
as the first call wrote them. -/
theorem claim_C6 (o : Order) (bal : ℚ) :
    (o.cancelled = true → cancelEndpoint o bal = (some .alreadyCancelled, o, bal))
    ∧ (o.cancelled = false → o.completed = true →
        cancelEndpoint o bal = (some .alreadyCompleted, o, bal))
    ∧ (o.cancelled = false → o.is_active = true →
        cancelEndpoint (o.cancel_order bal).order (o.cancel_order bal).balance
          = (some .alreadyCancelled, (o.cancel_order bal).order,
              bal + (o.remaining_views : ℚ) / 1000 * o.spm)) := by
  refine ⟨?_, ?_, ?_⟩
  · intro hc
    unfold cancelEndpoint validate_order_for_cancellation
    simp [hc]
  · intro hc hd
    unfold cancelEndpoint validate_order_for_cancellation
    simp [hc, hd]
  · intro hc ha
    unfold Order.cancel_order
    rw [if_pos ⟨hc, ha⟩]
    unfold cancelEndpoint validate_order_for_cancellation
    simp [Balance.deposit]

/-- C6 witness: double cancel of the refund order refunds once; the second
call errors with `AlreadyCancelled` and keeps the balance at `0 + 2.50`. -/
theorem claim_C6_witness :
    cancelEndpoint (refundOrder.cancel_order 0).order
        (refundOrder.cancel_order 0).balance
      = (some .alreadyCancelled, (refundOrder.cancel_order 0).order,
          0 + (refundOrder.remaining_views : ℚ) / 1000 * refundOrder.spm) :=
  (claim_C6 refundOrder 0).2.2 rfl rfl

/-- C7: the claim fails on the code.  A manually deactivated order
(`is_active = false`, neither cancelled nor completed, 250 remaining views,
`spm = 10`) passes the endpoint's validation, but `Order.cancel_order`'s own
guard `not cancelled and is_active` fails, so the call returns success with
refund `0`, deposits nothing, and leaves every order field unchanged — the
order is not marked cancelled and its remaining pool is not refunded. -/
theorem claim_C7 :
    cancelEndpoint deactivatedOrder 0 = (none, deactivatedOrder, 0)
    ∧ (deactivatedOrder.cancel_order 0).refund = 0
    ∧ deactivatedOrder.cancelled = false
    ∧ deactivatedOrder.completed = false
    ∧ deactivatedOrder.is_active = false
    ∧ deactivatedOrder.remaining_views = 250 := by
  refine ⟨?_, ?_, rfl, rfl, rfl, rfl⟩
  · unfold cancelEndpoint validate_order_for_cancellation Order.cancel_order
    simp [deactivatedOrder, refundOrder, sampleOrder]
  · unfold Order.cancel_order
    simp [deactivatedOrder, refundOrder, sampleOrder]

theorem Rat_floor_eq_Int_floor (q : ℚ) : Rat.floor q = ⌊q⌋ :=
  (Rat.floor_def' q).trans Rat.floor_def.symm

/-- What creation writes into the counters: `total_views =
floor(budget / spm * 1000)`, `remaining_views = total_views`,
`shown_views = 0`. -/
theorem createOrder_counters (p : OrderInit) (hs : 0 < p.spm)
    (hb : 0 < p.budget) :
    ((createOrder p).total_views : ℤ) = Rat.floor (p.budget / p.spm * 1000)
    ∧ (createOrder p).remaining_views = (createOrder p).total_views
    ∧ (createOrder p).shown_views = 0 := by
  have hq : 0 ≤ p.budget / p.spm * 1000 := by positivity
  have hfl : 0 ≤ Rat.floor (p.budget / p.spm * 1000) :=
    Rat.le_floor.mpr (by exact_mod_cast hq)
  unfold createOrder Order.saveNew
  rw [if_pos ⟨ne_of_gt hb, ne_of_gt hs⟩]
  refine ⟨?_, rfl, rfl⟩
  show ((Order.calculate_views_from_budget _ : ℕ) : ℤ) = _
  unfold Order.calculate_views_from_budget pyInt
  rw [if_pos hs, if_pos hq]
  exact Int.toNat_of_nonneg hfl

/-- C8: at creation `total_views = floor(budget / spm * 1000)` in exact
arithmetic, `remaining_views` starts at `total_views` and `shown_views` at 0;
`total_views` is afterwards preserved by every operation of the core
(impression commits, `decrement_views`, cancellation,
activation/deactivation); and `budget = 100`, `spm = 5` yields
`total_views = 20000`. -/
theorem claim_C8 :
    (∀ p : OrderInit, 0 < p.spm → 0 < p.budget →
      ((createOrder p).total_views : ℤ) = Rat.floor (p.budget / p.spm * 1000)
      ∧ (createOrder p).remaining_views = (createOrder p).total_views
      ∧ (createOrder p).shown_views = 0)
    ∧ (∀ o o', Order.decrement_views o = some o' →
        o'.total_views = o.total_views)
    ∧ (∀ (o : Order) (bal : ℚ),
        (o.cancel_order bal).order.total_views = o.total_views)
    ∧ (∀ (o : Order) (b : Bool),
        (activationEndpoint o b).2.total_views = o.total_views)
    ∧ (∀ (st : St) (pk : ℕ) (v : String) (pk' : ℕ),
        (findOrder (try_show_ad_to_user st pk v).2 pk').map Order.total_views
          = (findOrder st pk').map Order.total_views)
    ∧ (∀ p : OrderInit, p.budget = 100 → p.spm = 5 →
        (createOrder p).total_views = 20000) := by
  refine ⟨fun p hs hb => createOrder_counters p hs hb, ?_, ?_, ?_, ?_, ?_⟩
  · intro o o' h
    unfold Order.decrement_views at h
    by_cases hg : 0 < o.remaining_views ∧ o.cancelled = false
    · rw [if_pos hg] at h
      dsimp only at h
      have h' := Option.some.inj h
      subst h'
      by_cases hz : o.remaining_views - 1 = 0 <;> simp [hz]
    · rw [if_neg hg] at h
      exact absurd h (by simp)
  · intro o bal
    unfold Order.cancel_order
    by_cases hg : o.cancelled = false ∧ o.is_active = true
    · rw [if_pos hg]
    · rw [if_neg hg]
  · intro o b
    unfold activationEndpoint
    cases activationValidate o b with
    | error e => rfl
    | ok u =>
      dsimp only
      cases b with
      | false => rfl
      | true =>
        by_cases hz : o.remaining_views = 0
        · simp [hz]
        · simp [hz]
  · exact fun st pk v pk' =>
      field_findOrder_try_show Order.total_views commitOrder_total st pk v pk'
  · intro p hb hs
    have h := (createOrder_counters p (by rw [hs]; norm_num)
      (by rw [hb]; norm_num)).1
    rw [hb, hs] at h
    have h2 : Rat.floor ((100 : ℚ) / 5 * 1000) = 20000 := by
      have h3 : ((100 : ℚ) / 5 * 1000) = 20000 := by norm_num
      rw [Rat_floor_eq_Int_floor, h3]
      simp
    rw [h2] at h
    exact_mod_cast h

/-- C8 witness: the creation counters at the concrete request
`budget = 100`, `spm = 5`. -/
theorem claim_C8_witness :
    (((createOrder sampleInit).total_views : ℤ)
        = Rat.floor (sampleInit.budget / sampleInit.spm * 1000)
      ∧ (createOrder sampleInit).remaining_views
          = (createOrder sampleInit).total_views
      ∧ (createOrder sampleInit).shown_views = 0)
    ∧ (createOrder sampleInit).total_views = 20000 :=
  ⟨claim_C8.1 sampleInit (by norm_num [sampleInit]) (by norm_num [sampleInit]),
   claim_C8.2.2.2.2.2 sampleInit rfl rfl⟩

/-- C9: the claim fails on the code.  Requesting activation with the order's
current `is_active = true` value, on an order that is neither cancelled nor
completed, puts only a `warning` into the validation dictionary — yet
`OrderActivationSerializer.validate` raises on any non-empty dictionary, so
the request is rejected as a validation error (HTTP 400) instead of being
reported as a warning; the view's warning branch is unreachable.  (No state
changes in either reading.) -/
theorem claim_C9 :
    (activationEndpoint sampleStOrder true
      = (.validationError
            { error := none, warning := some "order is already active" },
         sampleStOrder)
      ∧ sampleStOrder.cancelled = false
      ∧ sampleStOrder.completed = false
      ∧ sampleStOrder.is_active = true)
    ∧ (activationEndpoint deactivatedOrder false
      = (.validationError
            { error := none, warning := some "order is already inactive" },
         deactivatedOrder)
      ∧ deactivatedOrder.cancelled = false
      ∧ deactivatedOrder.completed = false
      ∧ deactivatedOrder.is_active = false) :=
  ⟨⟨rfl, rfl, rfl, rfl⟩, ⟨rfl, rfl, rfl, rfl⟩⟩

/-- C10: `Balance.deposit` performs no validation — depositing `-5` onto a
zero balance yields the negative balance `-5` — while the deposit endpoint
accepts only serializer-validated amounts (`min_value = 0.01`, at most two
decimal places), so a balance mutated only through the endpoint stays
positive. -/
theorem claim_C10 :
    (Balance.deposit 0 (-5) = -5 ∧ Balance.deposit 0 (-5) < 0)
    ∧ (∀ bal a r : ℚ, 0 ≤ bal → depositEndpoint bal a = some r → 0 < r)
    ∧ (∀ a : ℚ, depositSerializerValid a = true →
        1 / 100 ≤ a ∧ (a * 100).den = 1) := by
  refine ⟨⟨?_, ?_⟩, ?_, ?_⟩
  · show (0 : ℚ) + (-5) = -5
    norm_num
  · show (0 : ℚ) + (-5) < 0
    norm_num
  · intro bal a r hbal h
    unfold depositEndpoint at h
    by_cases hv : depositSerializerValid a
    · rw [if_pos hv] at h
      have hr : r = Balance.deposit bal a := (Option.some.inj h).symm
      unfold depositSerializerValid at hv
      simp only [Bool.and_eq_true, decide_eq_true_eq] at hv
      have ha : 0 < a := hv.2
      rw [hr]
      unfold Balance.deposit
      linarith
    · rw [if_neg hv] at h
      exact absurd h (by simp)
  · intro a hv
    unfold depositSerializerValid at hv
    simp only [Bool.and_eq_true, decide_eq_true_eq] at hv
    exact ⟨hv.1.2, hv.1.1.1⟩

/-- C10 witness: a deposit of the minimum valid amount `0.01` through the
endpoint keeps a zero balance positive, and the serializer constraints hold
at `0.01`. -/
theorem claim_C10_witness :
    0 < Balance.deposit 0 (1 / 100)
    ∧ 1 / 100 ≤ ((1 : ℚ) / 100) ∧ (((1 : ℚ) / 100) * 100).den = 1 := by
  have hval : depositSerializerValid (1 / 100) = true := by
    unfold depositSerializerValid
    have h1 : ((1 : ℚ) / 100 * 100) = 1 := by norm_num
    rw [h1]
    norm_num
  refine ⟨claim_C10.2.1 0 (1 / 100) (Balance.deposit 0 (1 / 100)) le_rfl ?_,
    claim_C10.2.2 (1 / 100) hval⟩
  unfold depositEndpoint
  rw [if_pos hval]

end ProAds
